import Mathlib

/-!
Verification of the DupliManager job-orchestration core.

This file shallowly embeds the relevant parts of the Python sources
(`server_py/core/helpers.py` and `server_py/routers/backups.py`) as
executable Lean definitions and proves, or refutes, the specified
properties about them.

Modelling conventions:
* Instants (`datetime.now()` values) are natural numbers counting
  microseconds since a reference Monday 00:00:00 (Python datetimes have
  microsecond resolution; `weekday()` is Monday = 0).
* Python dicts keyed by strings are association lists with
  insert-overwrite semantics (`mset`), deletion (`mpop`) and lookup
  (`mget`); key order is irrelevant to every property proved here.
* The schedule's `"time"` field is stored pre-parsed as the
  `hour`/`minute` pair that `_parse_schedule_time_parts` extracts.
-/

namespace DupliManager

/-! ## Time model -/

def usPerSecond : Nat := 1000000

def usPerMinute : Nat := 60 * usPerSecond

def usPerHour : Nat := 60 * usPerMinute

def usPerDay : Nat := 24 * usPerHour

/-- Midnight of the day containing `t` (what `now.replace(hour=h, minute=m,
second=0, microsecond=0)` starts from). -/
def dayStart (t : Nat) : Nat := (t / usPerDay) * usPerDay

/-- Python `now.weekday()`: Monday = 0 (the epoch is a Monday). -/
def weekday (t : Nat) : Nat := (t / usPerDay) % 7

/-! ## Schedule configuration (`helpers.py` lines 150-199) -/

/-- Source `SCHEDULE_WEEKDAY_INDEX` from `helpers.py`: the dict mapping the weekday
tokens `mon..sun` to `0..6`; `none` for any other token. -/
def SCHEDULE_WEEKDAY_INDEX (d : String) : Option Nat :=
  if d == "mon" then some 0
  else if d == "tue" then some 1
  else if d == "wed" then some 2
  else if d == "thu" then some 3
  else if d == "fri" then some 4
  else if d == "sat" then some 5
  else if d == "sun" then some 6
  else none

/-- The schedule dict: `enabled`, `type`, `time` (pre-parsed to
`hour`/`minute`), `days`, plus the scheduler-owned audit fields. -/
structure Schedule where
  enabled : Bool
  stype : String
  hour : Nat
  minute : Nat
  days : List String
  lastRunAt : Option Nat := none
  lastRunStatus : Option String := none
  lastError : Option String := none
  nextRunAt : Option Nat := none
deriving Repr, DecidableEq

/-- Source `base_today = now.replace(hour=hour, minute=minute, second=0,
microsecond=0)` from `compute_next_run_for_schedule`. -/
def base_today (now hour minute : Nat) : Nat :=
  dayStart now + hour * usPerHour + minute * usPerMinute

/-- One weekly candidate (`helpers.py` lines 187-192): offset
`(target_wd - current_wd) % 7` days from `base`, plus a week when the
candidate is not strictly in the future. -/
def weekly_candidate (now base currentWd : Nat) (day : String) : Nat :=
  let targetWd := (SCHEDULE_WEEKDAY_INDEX day).getD 0
  let deltaDays := (targetWd + 7 - currentWd) % 7
  let candidate := base + deltaDays * usPerDay
  if candidate ≤ now then candidate + 7 * usPerDay else candidate

/-- Source `days = [d for d in (schedule.get("days") or []) if d in
SCHEDULE_WEEKDAY_INDEX]`, defaulting to `["mon"]` when empty
(`helpers.py` lines 181-183). -/
def effective_weekly_days (days : List String) : List String :=
  let ds := days.filter (fun d => (SCHEDULE_WEEKDAY_INDEX d).isSome)
  if ds.isEmpty then ["mon"] else ds

/-- Python `min(candidates) if candidates else None`. -/
def listMin : List Nat → Option Nat
  | [] => none
  | c :: rest => some (rest.foldl min c)

/-- Source `compute_next_run_for_schedule` (`helpers.py` lines 172-199). The
`not schedule` guard is subsumed by `enabled = false`; any `type` other
than `"weekly"` takes the daily branch, exactly as in the source. -/
def compute_next_run_for_schedule (s : Schedule) (now : Nat) : Option Nat :=
  if !s.enabled then none
  else
    let base := base_today now s.hour s.minute
    if s.stype == "weekly" then
      let days := effective_weekly_days s.days
      let currentWd := weekday now
      let candidates := days.map (weekly_candidate now base currentWd)
      listMin candidates
    else
      if base ≤ now then some (base + usPerDay) else some base

/-- The per-weekday candidate exactly as §4.4 of the specification words it
(for comparison with the code's `weekly_candidate`): "compute the offset in
days from now's weekday to the target weekday using (target - current) mod 7;
form a candidate at candidateToday + offset days; if that candidate <= now,
add 7 days". -/
def specWeeklyCandidate (s : Schedule) (now : Nat) (d : String) : Nat :=
  let target := (SCHEDULE_WEEKDAY_INDEX d).getD 0
  let offset := (target + 7 - weekday now) % 7
  let c := dayStart now + s.hour * usPerHour + s.minute * usPerMinute + offset * usPerDay
  if c ≤ now then c + 7 * usPerDay else c

/-! ## String-keyed maps (Python dicts) -/

/-- Association-list model of a Python dict with string keys. -/
abbrev StrMap (α : Type) := List (String × α)

/-- Dict `m.pop(k, None)`: remove the entry for `k`. -/
def mpop {α : Type} (m : StrMap α) (k : String) : StrMap α :=
  m.filter (fun p => !(p.1 == k))

/-- Dict `m[k] = v`: insert-overwrite (key order is irrelevant to every property
proved in this file). -/
def mset {α : Type} (m : StrMap α) (k : String) (v : α) : StrMap α :=
  (k, v) :: mpop m k

/-- Dict `m.get(k)`. -/
def mget {α : Type} : StrMap α → String → Option α
  | [], _ => none
  | p :: m, k => if p.1 == k then some p.2 else mget m k

/-! ## Change summary (`helpers.py` lines 356-474)

`build_backup_change_summary` performs the remote calls through
`duplicacy_service`; they are modelled as oracle inputs: the
`list_snapshots` result is passed in directly, and `list_files` is an
oracle function from a revision number to its result.  The function
additionally returns the list of revisions `list_files` was invoked on,
so that "no listing calls performed" is a statement about the model. -/

structure SnapshotEntry where
  id : String
  revision : Int
deriving Repr, DecidableEq

structure ListSnapshotsResult where
  code : Int
  snapshots : List SnapshotEntry
  stdout : String := ""
  stderr : String := ""
deriving Repr, DecidableEq

structure FileItem where
  path : String
  raw : String
deriving Repr, DecidableEq

structure FilesResult where
  code : Int
  files : List FileItem
deriving Repr, DecidableEq

structure SampleSet where
  newSamples : List String
  changedSamples : List String
  deletedSamples : List String
deriving Repr, DecidableEq

/-- The change-summary dict; the Python keys `new`, `changed`, `deleted`
are the `*Count` fields here.  Fields absent from a given Python return
value are `none`. -/
structure ChangeSummary where
  ok : Bool
  message : Option String := none
  detail : Option String := none
  createdRevision : Option Int := none
  previousRevision : Option Int := none
  fileCount : Option Nat := none
  newCount : Option Nat := none
  changedCount : Option Nat := none
  deletedCount : Option Nat := none
  unchanged : Option Bool := none
  samples : Option SampleSet := none
deriving Repr, DecidableEq

/-- Source `_repo_snapshot_revisions`: revisions of the snapshots matching
`snapshot_id`, as `sorted(set(revs))` (duplicates removed, ascending). -/
def repo_snapshot_revisions (snapshots : List SnapshotEntry) (snapshotId : String) : List Int :=
  ((snapshots.filterMap (fun s => if s.id == snapshotId then some s.revision else none)).dedup).insertionSort (· ≤ ·)

/-- Source `_build_file_signature_map`: path → signature, skipping empty paths and
directory entries (paths ending in a separator); the signature is
`item.raw or path`. -/
def build_file_signature_map (fileItems : List FileItem) : StrMap String :=
  fileItems.foldl
    (fun sigs item =>
      let path := item.path.trim
      if path == "" || path.endsWith "/" || path.endsWith "\\" then sigs
      else mset sigs path (if item.raw == "" then path else item.raw))
    []

/-- Source `_sample_paths`: at most the first `limit` (default 12) entries. -/
def sample_paths (items : List String) (limit : Nat := 12) : List String :=
  items.take limit

/-- Python `sorted(...)` on a list of path strings. -/
def sortedStr (l : List String) : List String :=
  l.insertionSort (· ≤ ·)

/-- Source `new_paths` (`helpers.py` line 456): keys of `latest_map` absent from
`prev_map`, sorted. -/
def diff_new_paths (latest_map prev_map : StrMap String) : List String :=
  sortedStr ((latest_map.map (·.1)).filter (fun p => (mget prev_map p).isNone))

/-- Source `deleted_paths` (`helpers.py` line 457): keys of `prev_map` absent from
`latest_map`, sorted. -/
def diff_deleted_paths (latest_map prev_map : StrMap String) : List String :=
  sortedStr ((prev_map.map (·.1)).filter (fun p => (mget latest_map p).isNone))

/-- Source `changed_paths` (`helpers.py` line 458): keys of `latest_map` present in
`prev_map` with a different signature, sorted. -/
def diff_changed_paths (latest_map prev_map : StrMap String) : List String :=
  sortedStr ((latest_map.map (·.1)).filter
    (fun p => (mget prev_map p).isSome && !(mget latest_map p == mget prev_map p)))

/-- The final summary dict built from the two signature maps
(`helpers.py` lines 456-474). -/
def diff_change_summary (latestRevision : Int) (previousRevision : Option Int)
    (latest_map prev_map : StrMap String) : ChangeSummary :=
  let new_paths := diff_new_paths latest_map prev_map
  let deleted_paths := diff_deleted_paths latest_map prev_map
  let changed_paths := diff_changed_paths latest_map prev_map
  { ok := true
    createdRevision := some latestRevision
    previousRevision := previousRevision
    fileCount := some latest_map.length
    newCount := some new_paths.length
    changedCount := some changed_paths.length
    deletedCount := some deleted_paths.length
    unchanged := some (new_paths.length + changed_paths.length + deleted_paths.length == 0)
    samples := some
      { newSamples := sample_paths new_paths
        changedSamples := sample_paths changed_paths
        deletedSamples := sample_paths deleted_paths } }

/-- Python `revisions[-2]` when `len(revisions) >= 2`. -/
def secondLast? {α : Type} (l : List α) : Option α :=
  l.dropLast.getLast?

/-- Source `build_backup_change_summary` (`helpers.py` lines 383-474).  Returns the
summary together with the revisions passed to the `list_files` oracle, in
call order. -/
def build_backup_change_summary (snapshotId : String)
    (listSnapshots : ListSnapshotsResult) (listFiles : Int → FilesResult)
    (pre_latest_revision : Option Int) : ChangeSummary × List Int :=
  if listSnapshots.code ≠ 0 then
    ({ ok := false
       message := some "No se pudieron consultar snapshots tras el backup"
       detail := some (if listSnapshots.stdout == "" then listSnapshots.stderr else listSnapshots.stdout) }, [])
  else
    let revisions := repo_snapshot_revisions listSnapshots.snapshots snapshotId
    match revisions.getLast? with
    | none => ({ ok := false, message := some "No se encontraron revisiones del snapshot" }, [])
    | some latest_revision =>
      let previous_revision : Option Int :=
        match pre_latest_revision with
        | some pre =>
          if pre ∈ revisions ∧ pre ≠ latest_revision then some pre
          else if 2 ≤ revisions.length then secondLast? revisions else none
        | none => if 2 ≤ revisions.length then secondLast? revisions else none
      if (match pre_latest_revision with | some pre => pre == latest_revision | none => false) then
        ({ ok := true
           createdRevision := some latest_revision
           previousRevision := previous_revision
           changedCount := some 0
           newCount := some 0
           deletedCount := some 0
           unchanged := some true
           samples := some { newSamples := [], changedSamples := [], deletedSamples := [] }
           message := some ("Sin cambios. No se creó una revisión nueva (última: #" ++ toString latest_revision ++ ").") }, [])
      else
        let latest_files := listFiles latest_revision
        if latest_files.code ≠ 0 then
          ({ ok := false
             createdRevision := some latest_revision
             message := some "No se pudo listar la revisión creada" }, [latest_revision])
        else
          let latest_map := build_file_signature_map latest_files.files
          match previous_revision with
          | none => (diff_change_summary latest_revision none latest_map [], [latest_revision])
          | some prev =>
            let prev_files := listFiles prev
            let prev_map := if prev_files.code == 0 then build_file_signature_map prev_files.files else []
            (diff_change_summary latest_revision (some prev) latest_map prev_map, [latest_revision, prev])

/-! ## Job registry state (`backups.py`)

The three module-level dicts of `helpers.py` (`active_backups`,
`completed_backups`, `active_backup_processes`) form the server state.
Timestamps are instants of the time model; log-only side effects are
elided. -/

/-- An `active_backups[repo_id]` entry (`backups.py` lines 286-293). -/
structure ActiveBackup where
  status : String
  startedAt : Nat
  lastOutput : String
  outputLines : List String
  cancelRequested : Bool
  trigger : String
  pid : Option Nat := none
  backupSummary : Option ChangeSummary := none
deriving Repr, DecidableEq

/-- A `completed_backups[repo_id]` entry (`backups.py` lines 477-486). -/
structure CompletedBackup where
  done : Bool
  code : Int
  stdout : String
  stderr : String
  finishedAt : Nat
  canceled : Bool
  backupSummary : Option ChangeSummary
  trigger : String
deriving Repr, DecidableEq

/-- The live subprocess handle: its pid and whether `proc.terminate()`
resp. `os.kill(pid, SIGTERM)` would succeed or raise. -/
structure Proc where
  pid : Option Nat
  terminateOk : Bool
  killOk : Bool
deriving Repr, DecidableEq

structure ServerState where
  active : StrMap ActiveBackup
  completed : StrMap CompletedBackup
  procs : StrMap Proc
deriving Repr, DecidableEq

inductive StartResult
  | ok
  | notFound404
  | conflict409
deriving Repr, DecidableEq

/-- The synchronous part of `start_backup` (`backups.py` lines 264-294):
repo lookup, single-flight check, registration of the active entry and
one-shot clearing of any stale completed record.  `repos` is the list of
repository ids in the configuration store; the spawned background task is
`run_backup_task`/`finish_backup` below. -/
def start_backup (st : ServerState) (repos : List String) (repoId : String)
    (now : Nat) (trigger : String) : StartResult × ServerState :=
  if repoId ∉ repos then (.notFound404, st)
  else if (mget st.active repoId).isSome then (.conflict409, st)
  else
    let trig := if trigger == "manual" || trigger == "scheduler" then trigger else "manual"
    let entry : ActiveBackup :=
      { status := "running"
        startedAt := now
        lastOutput := "Iniciando..."
        outputLines := []
        cancelRequested := false
        trigger := trig }
    (.ok,
     { st with
        active := mset st.active repoId entry
        completed := mpop st.completed repoId })

inductive CancelResult
  | ok
  | notFound404
  | noProcess409
  | cancelFailed500 (detail : String)
deriving Repr, DecidableEq

/-- Source `cancel_backup` (`backups.py` lines 528-555).  Note that
`cancelRequested` is written (and an output line appended) before the
terminate/kill attempt, so it stays set even when signalling fails. -/
def cancel_backup (st : ServerState) (repoId : String) : CancelResult × ServerState :=
  match mget st.active repoId with
  | none => (.notFound404, st)
  | some info =>
    match mget st.procs repoId with
    | none => (.noProcess409, st)
    | some proc =>
      let info' :=
        { info with
            cancelRequested := true
            lastOutput := "Cancelación solicitada por el usuario..."
            outputLines := info.outputLines ++ ["⏹ Cancelación solicitada por el usuario..."] }
      let st' := { st with active := mset st.active repoId info' }
      if proc.terminateOk then (.ok, st')
      else
        match proc.pid with
        | some _ =>
          if proc.killOk then (.ok, st')
          else (.cancelFailed500 "No se pudo cancelar el backup", st')
        | none => (.cancelFailed500 "PID no disponible", st')

/-- The completion tail of `run_backup_task` (`backups.py` lines 440-515,
success-or-error path): reads `cancelRequested` and `backupSummary` off the
active entry, stores the one-shot completed record, and clears the process
handle and the active entry.  The repository-config bookkeeping and cache
invalidation are elided. -/
def finish_backup (st : ServerState) (repoId : String) (code : Int)
    (stdout stderr : String) (finishedAt : Nat) (trigger : String) : ServerState :=
  let was_cancelled :=
    match mget st.active repoId with
    | some info => info.cancelRequested
    | none => false
  let summary :=
    match mget st.active repoId with
    | some info => info.backupSummary
    | none => none
  let completedRec : CompletedBackup :=
    { done := true
      code := code
      stdout := stdout
      stderr := stderr
      finishedAt := finishedAt
      canceled := was_cancelled
      backupSummary := summary
      trigger := trigger }
  { st with
      completed := mset st.completed repoId completedRec
      procs := mpop st.procs repoId
      active := mpop st.active repoId }

/-! ## Progress delivery (`backups.py` lines 557-591) -/

inductive ProgressEvent
  | runningChunk (output : String)
  | runningIdle
  | doneFull (success : Bool) (canceled : Bool) (code : Int)
      (finalOutput : String) (backupSummary : Option ChangeSummary)
  | doneBare
deriving Repr, DecidableEq

/-- One iteration of `backup_progress`'s `event_generator`: given the
per-observer cursor `sentLines`, emit one SSE event and return the new
cursor and state.  Popping the completed record on first delivery is the
`completed_backups.pop(repo_id, None)` at line 574. -/
def backup_progress_step (st : ServerState) (repoId : String) (sentLines : Nat) :
    ProgressEvent × Nat × ServerState :=
  match mget st.active repoId with
  | some info =>
    let lines := info.outputLines
    if sentLines < lines.length then
      (.runningChunk (String.intercalate "\n" (lines.drop sentLines)), lines.length, st)
    else
      (.runningIdle, sentLines, st)
  | none =>
    match mget st.completed repoId with
    | some c =>
      (.doneFull (c.code == 0 && !c.canceled) c.canceled c.code
         (if c.stdout == "" then c.stderr else c.stdout) c.backupSummary,
       sentLines,
       { st with completed := mpop st.completed repoId })
    | none => (.doneBare, sentLines, st)

/-! ## Scheduler tick (`helpers.py` lines 253-335)

The per-repository body of `scheduler_tick` is modelled as a function of
one repository's schedule.  The `await start_backup(...)` call and the
schedule-audit writes are recorded as an ordered event trace, so the
claims about their relative order are statements about the model.  The
outcome of the `start_backup` call (success, `HTTPException`, or other
exception) is an oracle input. -/

inductive StartOutcome
  | ok
  | httpError (detail : String)
  | otherError
deriving Repr, DecidableEq

inductive SchedEvent
  | startCall (repoId : String)
  | writeAudit (lastRunAt : Nat) (lastRunStatus : String) (nextRunAt : Option Nat)
deriving Repr, DecidableEq

/-- The dispatch section of the tick (`helpers.py` lines 297-332), reached
when the schedule is due: call `start_backup`, then write the audit fields
(`lastRunAt`, `lastRunStatus`, `lastError`) and recompute `nextRunAt` from
`now + 1s` on success or `now + 60s` on failure. -/
def scheduler_dispatch_due (repoId : String) (sched : Schedule) (now : Nat)
    (outcome : StartOutcome) : List SchedEvent × Schedule :=
  match outcome with
  | .ok =>
    let next := compute_next_run_for_schedule sched (now + usPerSecond)
    ([.startCall repoId, .writeAudit now "queued" next],
     { sched with
        lastRunAt := some now
        lastRunStatus := some "queued"
        lastError := none
        nextRunAt := next })
  | .httpError detail =>
    let next := compute_next_run_for_schedule sched (now + 60 * usPerSecond)
    ([.startCall repoId, .writeAudit now "error" next],
     { sched with
        lastRunAt := some now
        lastRunStatus := some "error"
        lastError := some detail
        nextRunAt := next })
  | .otherError =>
    let next := compute_next_run_for_schedule sched (now + 60 * usPerSecond)
    ([.startCall repoId, .writeAudit now "error" next],
     { sched with
        lastRunAt := some now
        lastRunStatus := some "error"
        lastError := some "Error inesperado lanzando el backup programado"
        nextRunAt := next })

/-- The weekday-token normalization inside `normalize_schedule_config`
(`helpers.py` lines 211-215): keep the valid tokens, dropping duplicates
while preserving first-occurrence order (the `.strip().lower()[:3]`
cleanup is the identity on the already-three-letter tokens modelled
here). -/
def normalize_days (days : List String) : List String :=
  days.foldl
    (fun acc d =>
      if (SCHEDULE_WEEKDAY_INDEX d).isSome && !(acc.contains d) then acc ++ [d] else acc)
    []

/-- The field re-validation of `normalize_schedule_config` (`helpers.py`
lines 202-238, called by the tick with `raw = existing = schedule`):
re-validate `type` and `days` and keep the audit fields, with `nextRunAt`
not yet set.  The `threads` clamping is not modelled (that field never
affects `nextRunAt`), and the `time` string re-parse is the identity on
the pre-parsed `hour`/`minute` pair. -/
def normalize_schedule_fields (sched : Schedule) : Schedule :=
  let mode := if sched.stype == "daily" || sched.stype == "weekly" then sched.stype else "daily"
  let days0 := normalize_days sched.days
  let days1 := if mode == "weekly" && days0.isEmpty then ["mon"] else days0
  { enabled := sched.enabled
    stype := mode
    hour := sched.hour
    minute := sched.minute
    days := if mode == "weekly" then days1 else []
    lastRunAt := sched.lastRunAt
    lastRunStatus := sched.lastRunStatus
    lastError := sched.lastError
    nextRunAt := none }

/-- Source `normalize_schedule_config(schedule, schedule)` as the scheduler
tick calls it (`helpers.py` lines 202-241): the re-validated fields plus —
crucially — an unconditionally recomputed `nextRunAt` at the current
instant (lines 239-240). -/
def normalize_schedule_config (sched : Schedule) (now : Nat) : Schedule :=
  let normalized := normalize_schedule_fields sched
  { normalized with nextRunAt := compute_next_run_for_schedule normalized now }

/-- The per-repository body of `scheduler_tick` (`helpers.py` lines
258-332): clear `nextRunAt` when disabled; re-normalize the schedule
(replacing it when the re-normalization differs, which rewrites
`nextRunAt` to a freshly computed instant — lines 270-274); initialize
`nextRunAt` when still unset; skip repositories with an active backup or
whose next run is in the future; otherwise run the dispatch block.
`activeKeys` are the keys of `active_backups`. -/
def scheduler_tick_repo (repoId : String) (sched : Schedule) (now : Nat)
    (activeKeys : List String) (outcome : StartOutcome) : List SchedEvent × Schedule :=
  if !sched.enabled then ([], { sched with nextRunAt := none })
  else
    let normalized := normalize_schedule_config sched now
    let sched1 := if normalized ≠ sched then normalized else sched
    let sched' :=
      match sched1.nextRunAt with
      | some _ => sched1
      | none => { sched1 with nextRunAt := compute_next_run_for_schedule sched1 now }
    if repoId ∈ activeKeys then ([], sched')
    else
      match sched'.nextRunAt with
      | none => ([], sched')
      | some nextRun =>
        if now < nextRun then ([], sched')
        else scheduler_dispatch_due repoId sched' now outcome

def isQueuedWrite : SchedEvent → Bool
  | .writeAudit _ s _ => s == "queued"
  | _ => false

def isStartCall : SchedEvent → Bool
  | .startCall _ => true
  | _ => false

/-- The behaviour C2 claims of a due resource's tick trace: a
`start_backup` invocation occurs, strictly preceded by a queued audit
write. -/
def WritesQueuedThenStarts (tr : List SchedEvent) : Prop :=
  ∃ j, j < tr.length ∧ isStartCall (tr.getD j (.startCall "")) = true ∧
    ∃ i, i < j ∧ isQueuedWrite (tr.getD i (.startCall "")) = true

/-! ## Repository sanitization (`helpers.py` lines 54, 88-92) -/

def INTERNAL_SECRET_KEYS : List String := ["_secrets", "wasabiAccessKey", "wasabiAccessId"]

/-- Source `sanitize_repo`: copy the record and `pop` each internal secret key. -/
def sanitize_repo {α : Type} (repo : StrMap α) : StrMap α :=
  INTERNAL_SECRET_KEYS.foldl (fun sanitized key => mpop sanitized key) repo

/-- Endpoint `GET /api/repos` (`backups.py` lines 34-37): every stored record is
returned sanitized. -/
def get_repos {α : Type} (repos : List (StrMap α)) : List (StrMap α) :=
  repos.map sanitize_repo

/-! ## Helper lemmas -/

theorem mget_nil {α : Type} (k : String) : mget ([] : StrMap α) k = none := rfl

theorem mget_mpop_self {α : Type} (m : StrMap α) (k : String) :
    mget (mpop m k) k = none := by
  induction m with
  | nil => rfl
  | cons p m ih =>
    by_cases h : p.1 = k
    · simpa [mpop, h] using ih
    · simpa [mpop, mget, h] using ih

theorem mget_mpop_ne {α : Type} (m : StrMap α) (k k' : String) (h : k' ≠ k) :
    mget (mpop m k) k' = mget m k' := by
  induction m with
  | nil => rfl
  | cons p m ih =>
    by_cases hp : p.1 = k
    · simpa [mpop, mget, hp, Ne.symm h] using ih
    · by_cases hp' : p.1 = k'
      · simp [mpop, mget, hp, hp', h]
      · simpa [mpop, mget, hp, hp'] using ih

theorem mget_mset_self {α : Type} (m : StrMap α) (k : String) (v : α) :
    mget (mset m k v) k = some v := by
  simp [mset, mget]

theorem mget_mset_ne {α : Type} (m : StrMap α) (k k' : String) (v : α) (h : k' ≠ k) :
    mget (mset m k v) k' = mget m k' := by
  have hne : k ≠ k' := Ne.symm h
  simp only [mset, mget, hne, if_neg, beq_iff_eq, if_false]
  exact mget_mpop_ne m k k' h

theorem countP_key_mpop {α : Type} (m : StrMap α) (k : String) :
    (mpop m k).countP (fun p => p.1 == k) = 0 := by
  rw [List.countP_eq_zero]
  intro p hp
  have := List.of_mem_filter hp
  simpa using this

theorem countP_key_mset {α : Type} (m : StrMap α) (k : String) (v : α) :
    (mset m k v).countP (fun p => p.1 == k) = 1 := by
  simp [mset, List.countP_cons, countP_key_mpop]

theorem mget_isSome_iff_mem_keys {α : Type} (m : StrMap α) (k : String) :
    (mget m k).isSome ↔ k ∈ m.map (·.1) := by
  induction m with
  | nil => simp [mget]
  | cons p m ih =>
    by_cases hp : p.1 = k
    · simp [mget, hp]
    · have hkp : k ≠ p.1 := fun hc => hp hc.symm
      simp [mget, hp, hkp, ih]

theorem mget_eq_none_iff_not_mem_keys {α : Type} (m : StrMap α) (k : String) :
    mget m k = none ↔ k ∉ m.map (·.1) := by
  rw [← mget_isSome_iff_mem_keys]
  cases mget m k <;> simp

theorem foldl_min_le_init (l : List Nat) (c : Nat) : l.foldl min c ≤ c := by
  induction l generalizing c with
  | nil => exact Nat.le_refl c
  | cons a l ih =>
    exact Nat.le_trans (ih (min c a)) (min_le_left c a)

theorem foldl_min_le_mem (l : List Nat) (c x : Nat) (hx : x ∈ l) :
    l.foldl min c ≤ x := by
  induction l generalizing c with
  | nil => cases hx
  | cons a l ih =>
    rcases List.mem_cons.mp hx with h | h
    · subst h
      exact Nat.le_trans (foldl_min_le_init l (min c x)) (min_le_right c x)
    · exact ih (min c a) h

theorem foldl_min_mem (l : List Nat) (c : Nat) :
    l.foldl min c = c ∨ l.foldl min c ∈ l := by
  induction l generalizing c with
  | nil => exact Or.inl rfl
  | cons a l ih =>
    rcases ih (min c a) with h | h
    · by_cases hca : c ≤ a
      · have hmin : min c a = c := min_eq_left hca
        exact Or.inl (by rw [List.foldl_cons, h, hmin])
      · have hmin : min c a = a := min_eq_right (Nat.le_of_not_le hca)
        refine Or.inr ?_
        rw [List.foldl_cons, h, hmin]
        exact List.mem_cons_self a l
    · exact Or.inr (List.mem_cons_of_mem a h)

theorem listMin_spec (l : List Nat) (t : Nat) (h : listMin l = some t) :
    t ∈ l ∧ ∀ x ∈ l, t ≤ x := by
  match l, h with
  | c :: rest, h =>
    have ht : rest.foldl min c = t := by
      simpa [listMin] using h
    constructor
    · rcases foldl_min_mem rest c with hm | hm
      · rw [← ht, hm]; exact List.mem_cons_self c rest
      · rw [← ht]; exact List.mem_cons_of_mem c hm
    · intro x hx
      rcases List.mem_cons.mp hx with hx | hx
      · rw [← ht, hx]; exact foldl_min_le_init rest c
      · rw [← ht]; exact foldl_min_le_mem rest c x hx

theorem listMin_isSome (l : List Nat) (h : l ≠ []) : (listMin l).isSome := by
  cases l with
  | nil => exact absurd rfl h
  | cons c rest => simp [listMin]

theorem dayStart_le (t : Nat) : dayStart t ≤ t := Nat.div_mul_le_self t usPerDay

theorem lt_dayStart_add_day (t : Nat) : t < dayStart t + usPerDay := by
  have hmod : t % usPerDay < usPerDay := Nat.mod_lt t (by decide)
  have hdm : usPerDay * (t / usPerDay) + t % usPerDay = t := Nat.div_add_mod t usPerDay
  have : dayStart t = usPerDay * (t / usPerDay) := Nat.mul_comm _ _
  omega

theorem effective_weekly_days_ne_nil (days : List String) :
    effective_weekly_days days ≠ [] := by
  cases h : days.filter (fun d => (SCHEDULE_WEEKDAY_INDEX d).isSome) with
  | nil => simp [effective_weekly_days, h]
  | cons a l => simp [effective_weekly_days, h]

/-! ## Claim C1: single-flight -/

/-- C1.  Single-flight: for every resource key `k` with an existing
repository and no active job, calling `start` twice while the first job is
still active yields `started` for the first call and a 409 Conflict for the
second, the second call queues nothing, and the active map holds exactly
one entry for `k`. -/
theorem single_flight_start (st : ServerState) (repos : List String) (k : String)
    (now1 now2 : Nat) (trig1 trig2 : String)
    (hrepo : k ∈ repos) (hfree : mget st.active k = none) :
    (start_backup st repos k now1 trig1).1 = .ok ∧
    (start_backup (start_backup st repos k now1 trig1).2 repos k now2 trig2).1 = .conflict409 ∧
    (start_backup (start_backup st repos k now1 trig1).2 repos k now2 trig2).2 =
      (start_backup st repos k now1 trig1).2 ∧
    ((start_backup (start_backup st repos k now1 trig1).2 repos k now2 trig2).2.active.countP
      (fun p => p.1 == k)) = 1 := by
  refine ⟨?_, ?_, ?_, ?_⟩ <;>
    simp [start_backup, hrepo, hfree, mget_mset_self, countP_key_mset]

/-- Closed instance of `single_flight_start`. -/
theorem single_flight_start_witness :
    (start_backup ⟨[], [], []⟩ ["r1"] "r1" 0 "manual").1 = .ok ∧
    (start_backup (start_backup ⟨[], [], []⟩ ["r1"] "r1" 0 "manual").2 ["r1"] "r1" 5 "manual").1 = .conflict409 ∧
    (start_backup (start_backup ⟨[], [], []⟩ ["r1"] "r1" 0 "manual").2 ["r1"] "r1" 5 "manual").2 =
      (start_backup ⟨[], [], []⟩ ["r1"] "r1" 0 "manual").2 ∧
    ((start_backup (start_backup ⟨[], [], []⟩ ["r1"] "r1" 0 "manual").2 ["r1"] "r1" 5 "manual").2.active.countP
      (fun p => p.1 == "r1")) = 1 :=
  single_flight_start ⟨[], [], []⟩ ["r1"] "r1" 0 5 "manual" "manual" (by decide) rfl

/-! ## Claim C8: cancellation gating -/

/-- C8.  `cancel(k)` with no active job fails with 404; with an active job
but no recorded process handle it fails with the distinct 409; and it
succeeds only when both the active entry and the process handle exist. -/
theorem cancel_gating (st : ServerState) (k : String) :
    (mget st.active k = none → cancel_backup st k = (.notFound404, st)) ∧
    (∀ info, mget st.active k = some info → mget st.procs k = none →
      cancel_backup st k = (.noProcess409, st)) ∧
    ((cancel_backup st k).1 = .ok → (mget st.active k).isSome ∧ (mget st.procs k).isSome) := by
  refine ⟨?_, ?_, ?_⟩
  · intro h
    simp [cancel_backup, h]
  · intro info h hp
    simp [cancel_backup, h, hp]
  · intro hok
    cases ha : mget st.active k with
    | none => simp [cancel_backup, ha] at hok
    | some info =>
      cases hp : mget st.procs k with
      | none => simp [cancel_backup, ha, hp] at hok
      | some proc => exact ⟨rfl, rfl⟩

/-- Closed instance of `cancel_gating`: cancelling with no active job is a
404, and cancelling a registered job with no process handle is a 409. -/
theorem cancel_gating_witness :
    cancel_backup ⟨[], [], []⟩ "r1" = (.notFound404, ⟨[], [], []⟩) ∧
    cancel_backup ⟨[("r1", ⟨"running", 0, "", [], false, "manual", none, none⟩)], [], []⟩ "r1" =
      (.noProcess409, ⟨[("r1", ⟨"running", 0, "", [], false, "manual", none, none⟩)], [], []⟩) :=
  ⟨(cancel_gating ⟨[], [], []⟩ "r1").1 rfl,
   (cancel_gating ⟨[("r1", ⟨"running", 0, "", [], false, "manual", none, none⟩)], [], []⟩ "r1").2.1
     ⟨"running", 0, "", [], false, "manual", none, none⟩ rfl rfl⟩

/-! ## Claim C9: the `canceled` flag records the request, not the observed
termination -/

/-- C9 counterexample.  A job for `"r1"` is active with a process handle
whose `terminate()` raises and whose pid is unavailable: the cancel request
fails with the 500 error, yet — because `cancel_backup` sets
`cancelRequested` before attempting to signal — when the job then runs to
completion with exit code 0 its terminal record still reports
`canceled = true`, contradicting the claim that `cancelled` is true only on
observed termination. -/
theorem cancelled_flag_counterexample :
    (cancel_backup
        ⟨[("r1", ⟨"running", 0, "", [], false, "manual", none, none⟩)], [],
         [("r1", ⟨none, false, false⟩)]⟩ "r1").1 = .cancelFailed500 "PID no disponible" ∧
    (mget (finish_backup
        (cancel_backup
          ⟨[("r1", ⟨"running", 0, "", [], false, "manual", none, none⟩)], [],
           [("r1", ⟨none, false, false⟩)]⟩ "r1").2 "r1" 0 "ok" "" 100 "manual").completed
        "r1").map (fun c => (c.canceled, c.code)) = some (true, 0) :=
  ⟨rfl, rfl⟩

/-- C9 amended.  The `canceled` field of the terminal record equals the
`cancelRequested` flag of the active entry at completion time — requested
cancellation, not observed termination. -/
theorem cancelled_flag_reflects_request (st : ServerState) (k : String) (info : ActiveBackup)
    (code : Int) (out err : String) (t : Nat) (trig : String)
    (h : mget st.active k = some info) :
    (mget (finish_backup st k code out err t trig).completed k).map (·.canceled) =
      some info.cancelRequested := by
  simp [finish_backup, h, mget_mset_self]

/-- Closed instance of `cancelled_flag_reflects_request`. -/
theorem cancelled_flag_reflects_request_witness :
    (mget (finish_backup ⟨[("r1", ⟨"running", 0, "", [], true, "manual", none, none⟩)], [], []⟩
        "r1" 0 "ok" "" 100 "manual").completed "r1").map (·.canceled) = some true :=
  cancelled_flag_reflects_request ⟨[("r1", ⟨"running", 0, "", [], true, "manual", none, none⟩)], [], []⟩
    "r1" ⟨"running", 0, "", [], true, "manual", none, none⟩ 0 "ok" "" 100 "manual" rfl

/-! ## Claim C3: completion is single-delivery -/

/-- C3.  After a job for `k` finishes (active entry removed, completed
record stored by `finish_backup`), the first progress observation emits
`done` with the populated result — success flag, cancelled flag, exit
code, final output and change summary — and removes the completed record;
any observation made when neither an active job nor a completed record
exists emits the bare `done` signal and changes nothing. -/
theorem completion_single_delivery (st : ServerState) (k : String) (info : ActiveBackup)
    (code : Int) (out err : String) (t : Nat) (trig : String) (s s' : Nat)
    (hactive : mget st.active k = some info) :
    (backup_progress_step (finish_backup st k code out err t trig) k s).1 =
      .doneFull (code == 0 && !info.cancelRequested) info.cancelRequested code
        (if out == "" then err else out) info.backupSummary ∧
    mget (backup_progress_step (finish_backup st k code out err t trig) k s).2.2.completed k = none ∧
    mget (backup_progress_step (finish_backup st k code out err t trig) k s).2.2.active k = none ∧
    (∀ st2 : ServerState, mget st2.active k = none → mget st2.completed k = none →
      backup_progress_step st2 k s' = (.doneBare, s', st2)) := by
  have hact : mget (finish_backup st k code out err t trig).active k = none := by
    simp [finish_backup, mget_mpop_self]
  have hcomp : mget (finish_backup st k code out err t trig).completed k =
      some { done := true, code := code, stdout := out, stderr := err, finishedAt := t,
             canceled := info.cancelRequested, backupSummary := info.backupSummary,
             trigger := trig } := by
    simp [finish_backup, hactive, mget_mset_self]
  refine ⟨?_, ?_, ?_, ?_⟩
  · simp [backup_progress_step, hact, hcomp]
  · simp [backup_progress_step, hact, hcomp, mget_mpop_self]
  · simp [backup_progress_step, hact, hcomp]
  · intro st2 h2a h2c
    simp [backup_progress_step, h2a, h2c]

/-- Closed instance of `completion_single_delivery`: a finished cancelled
job delivers its populated result exactly once, after which the record is
gone, and observing an idle key yields the bare terminal signal. -/
theorem completion_single_delivery_witness :
    (backup_progress_step
        (finish_backup ⟨[("r1", ⟨"running", 0, "x", ["l1"], true, "manual", none, none⟩)], [], []⟩
          "r1" 0 "out" "" 9 "manual") "r1" 0).1 =
      .doneFull false true 0 "out" none ∧
    backup_progress_step ⟨[], [], []⟩ "r1" 0 = (.doneBare, 0, ⟨[], [], []⟩) :=
  ⟨(completion_single_delivery ⟨[("r1", ⟨"running", 0, "x", ["l1"], true, "manual", none, none⟩)], [], []⟩
      "r1" ⟨"running", 0, "x", ["l1"], true, "manual", none, none⟩ 0 "out" "" 9 "manual" 0 0 rfl).1,
   (completion_single_delivery ⟨[("r1", ⟨"running", 0, "x", ["l1"], true, "manual", none, none⟩)], [], []⟩
      "r1" ⟨"running", 0, "x", ["l1"], true, "manual", none, none⟩ 0 "out" "" 9 "manual" 0 0 rfl).2.2.2
     ⟨[], [], []⟩ rfl rfl⟩

theorem weekly_candidate_future (now base currentWd : Nat) (day : String)
    (hbase : dayStart now ≤ base) : now < weekly_candidate now base currentWd day := by
  have hlt := lt_dayStart_add_day now
  simp only [weekly_candidate]
  generalize ((SCHEDULE_WEEKDAY_INDEX day).getD 0 + 7 - currentWd) % 7 = d
  split <;> omega

theorem base_today_ge_dayStart (now hour minute : Nat) :
    dayStart now ≤ base_today now hour minute :=
  le_trans (Nat.le_add_right _ _) (Nat.le_add_right _ _)

theorem compute_next_run_future (s : Schedule) (now t : Nat)
    (ht : compute_next_run_for_schedule s now = some t) : now < t := by
  have hbase := base_today_ge_dayStart now s.hour s.minute
  have hlt := lt_dayStart_add_day now
  by_cases he : s.enabled
  · by_cases hw : s.stype = "weekly"
    · have hlm : listMin ((effective_weekly_days s.days).map
          (weekly_candidate now (base_today now s.hour s.minute) (weekday now))) = some t := by
        simpa [compute_next_run_for_schedule, he, hw] using ht
      obtain ⟨hmem, -⟩ := listMin_spec _ _ hlm
      obtain ⟨day, -, hday⟩ := List.mem_map.mp hmem
      rw [← hday]
      exact weekly_candidate_future now _ (weekday now) day hbase
    · have hd : (if base_today now s.hour s.minute ≤ now
            then some (base_today now s.hour s.minute + usPerDay)
            else some (base_today now s.hour s.minute)) = some t := by
        simpa [compute_next_run_for_schedule, he, hw] using ht
      by_cases hb : base_today now s.hour s.minute ≤ now
      · rw [if_pos hb, Option.some_inj] at hd
        omega
      · rw [if_neg hb, Option.some_inj] at hd
        omega
  · simp [compute_next_run_for_schedule, he] at ht

theorem compute_next_run_none_iff (s : Schedule) (now : Nat) :
    compute_next_run_for_schedule s now = none ↔ s.enabled = false := by
  constructor
  · intro h
    by_contra hen
    have he : s.enabled = true := by
      cases hs : s.enabled
      · exact absurd hs hen
      · rfl
    by_cases hw : s.stype = "weekly"
    · have hne : (effective_weekly_days s.days).map
          (weekly_candidate now (base_today now s.hour s.minute) (weekday now)) ≠ [] := by
        intro hc
        exact effective_weekly_days_ne_nil s.days (List.map_eq_nil_iff.mp hc)
      have := listMin_isSome _ hne
      rw [show listMin ((effective_weekly_days s.days).map
          (weekly_candidate now (base_today now s.hour s.minute) (weekday now))) =
          compute_next_run_for_schedule s now from by
        simp [compute_next_run_for_schedule, he, hw]] at this
      rw [h] at this
      exact Bool.noConfusion this
    · have hd : (if base_today now s.hour s.minute ≤ now
          then some (base_today now s.hour s.minute + usPerDay)
          else some (base_today now s.hour s.minute)) = (none : Option Nat) := by
        simpa [compute_next_run_for_schedule, he, hw] using h
      by_cases hb : base_today now s.hour s.minute ≤ now
      · rw [if_pos hb] at hd; exact Option.noConfusion hd
      · rw [if_neg hb] at hd; exact Option.noConfusion hd
  · intro h
    simp [compute_next_run_for_schedule, h]

theorem compute_next_run_isSome (s : Schedule) (now : Nat) (he : s.enabled = true) :
    ∃ t, compute_next_run_for_schedule s now = some t ∧ now < t := by
  cases hc : compute_next_run_for_schedule s now with
  | none =>
    rw [(compute_next_run_none_iff s now).mp hc] at he
    exact Bool.noConfusion he
  | some t => exact ⟨t, rfl, compute_next_run_future s now t hc⟩

/-! ## Claim C7: next run strictly in the future -/

/-- C7.  Whenever `compute_next_run_for_schedule` returns a timestamp it is
strictly greater than the instant `now` it was computed at, and it returns
`none` exactly when the schedule is disabled. -/
theorem next_run_strictly_future (s : Schedule) (now : Nat) :
    (∀ t, compute_next_run_for_schedule s now = some t → now < t) ∧
    (compute_next_run_for_schedule s now = none ↔ s.enabled = false) :=
  ⟨fun t ht => compute_next_run_future s now t ht, compute_next_run_none_iff s now⟩

/-- Closed instance of `next_run_strictly_future`: a daily 23:00 schedule
evaluated at 23:30 of day zero fires the next day, strictly in the future;
disabling it yields `none`. -/
theorem next_run_strictly_future_witness :
    (23 * usPerHour + 30 * usPerMinute <
      usPerDay + 23 * usPerHour) ∧
    (compute_next_run_for_schedule
      { enabled := false, stype := "daily", hour := 23, minute := 0, days := [] }
      (23 * usPerHour + 30 * usPerMinute) = none ↔
      ({ enabled := false, stype := "daily", hour := 23, minute := 0, days := [] } : Schedule).enabled = false) :=
  ⟨(next_run_strictly_future
      { enabled := true, stype := "daily", hour := 23, minute := 0, days := [] }
      (23 * usPerHour + 30 * usPerMinute)).1 (usPerDay + 23 * usPerHour) (by decide),
   (next_run_strictly_future
      { enabled := false, stype := "daily", hour := 23, minute := 0, days := [] }
      (23 * usPerHour + 30 * usPerMinute)).2⟩

/-! ## Claim C4: weekly next-run computation -/

theorem specWeeklyCandidate_eq (s : Schedule) (now : Nat) (d : String) :
    specWeeklyCandidate s now d =
      weekly_candidate now (base_today now s.hour s.minute) (weekday now) d := rfl

/-- C4.  For every enabled weekly schedule, `compute_next_run_for_schedule`
returns the minimum of the per-weekday candidates described by the spec
(offset `(target - current) mod 7` days at the schedule's time of day, a
week later when not in the future), over the configured weekdays; an empty
weekday set is treated as `{Monday}`; and on `weekdays = {mon, fri}`,
`time = 09:00`, `now` = Wednesday 10:00 it returns Friday 09:00 of the same
week. -/
theorem weekly_next_run (s : Schedule) (now : Nat) :
    (s.enabled = true → s.stype = "weekly" →
      ∃ t, compute_next_run_for_schedule s now = some t ∧
        (∃ d ∈ effective_weekly_days s.days, t = specWeeklyCandidate s now d) ∧
        (∀ d ∈ effective_weekly_days s.days, t ≤ specWeeklyCandidate s now d)) ∧
    effective_weekly_days [] = ["mon"] ∧
    compute_next_run_for_schedule
      { enabled := true, stype := "weekly", hour := 9, minute := 0, days := ["mon", "fri"] }
      (2 * usPerDay + 10 * usPerHour) = some (4 * usPerDay + 9 * usPerHour) := by
  refine ⟨?_, rfl, by decide⟩
  intro he hw
  have hne : (effective_weekly_days s.days).map
      (weekly_candidate now (base_today now s.hour s.minute) (weekday now)) ≠ [] := by
    intro hc
    exact effective_weekly_days_ne_nil s.days (List.map_eq_nil_iff.mp hc)
  obtain ⟨t, ht⟩ := Option.isSome_iff_exists.mp (listMin_isSome _ hne)
  obtain ⟨hmem, hlb⟩ := listMin_spec _ _ ht
  refine ⟨t, ?_, ?_, ?_⟩
  · rw [show compute_next_run_for_schedule s now = listMin ((effective_weekly_days s.days).map
        (weekly_candidate now (base_today now s.hour s.minute) (weekday now))) from by
      simp [compute_next_run_for_schedule, he, hw]]
    exact ht
  · obtain ⟨d, hd, hdt⟩ := List.mem_map.mp hmem
    exact ⟨d, hd, by rw [specWeeklyCandidate_eq]; exact hdt.symm⟩
  · intro d hd
    rw [specWeeklyCandidate_eq]
    exact hlb _ (List.mem_map_of_mem _ hd)

/-- Closed instance of `weekly_next_run`, discharging its hypotheses on the
Wednesday-10:00 example schedule. -/
theorem weekly_next_run_witness :
    ∃ t, compute_next_run_for_schedule
        { enabled := true, stype := "weekly", hour := 9, minute := 0, days := ["mon", "fri"] }
        (2 * usPerDay + 10 * usPerHour) = some t ∧
      (∃ d ∈ effective_weekly_days ["mon", "fri"],
        t = specWeeklyCandidate
          { enabled := true, stype := "weekly", hour := 9, minute := 0, days := ["mon", "fri"] }
          (2 * usPerDay + 10 * usPerHour) d) ∧
      (∀ d ∈ effective_weekly_days ["mon", "fri"],
        t ≤ specWeeklyCandidate
          { enabled := true, stype := "weekly", hour := 9, minute := 0, days := ["mon", "fri"] }
          (2 * usPerDay + 10 * usPerHour) d) :=
  (weekly_next_run
    { enabled := true, stype := "weekly", hour := 9, minute := 0, days := ["mon", "fri"] }
    (2 * usPerDay + 10 * usPerHour)).1 rfl rfl

/-! ## Claim C5: unchanged short-circuit -/

/-- C5.  When a pre-operation latest revision was supplied and it equals
the post-operation latest revision, the change summary is `unchanged` with
all counts zero and empty samples, and no `list_files` call is made. -/
theorem unchanged_short_circuit (snapshotId : String) (ls : ListSnapshotsResult)
    (lf : Int → FilesResult) (r : Int)
    (hcode : ls.code = 0)
    (hlast : (repo_snapshot_revisions ls.snapshots snapshotId).getLast? = some r) :
    (build_backup_change_summary snapshotId ls lf (some r)).1.unchanged = some true ∧
    (build_backup_change_summary snapshotId ls lf (some r)).1.newCount = some 0 ∧
    (build_backup_change_summary snapshotId ls lf (some r)).1.changedCount = some 0 ∧
    (build_backup_change_summary snapshotId ls lf (some r)).1.deletedCount = some 0 ∧
    (build_backup_change_summary snapshotId ls lf (some r)).1.samples = some ⟨[], [], []⟩ ∧
    (build_backup_change_summary snapshotId ls lf (some r)).2 = [] := by
  simp [build_backup_change_summary, hcode, hlast]

/-- Closed instance of `unchanged_short_circuit`: one snapshot whose only
revision 5 was already the latest before the backup. -/
theorem unchanged_short_circuit_witness :
    (build_backup_change_summary "snap" { code := 0, snapshots := [⟨"snap", 5⟩] } (fun _ => ⟨1, []⟩) (some 5)).1.unchanged = some true ∧
    (build_backup_change_summary "snap" { code := 0, snapshots := [⟨"snap", 5⟩] } (fun _ => ⟨1, []⟩) (some 5)).1.newCount = some 0 ∧
    (build_backup_change_summary "snap" { code := 0, snapshots := [⟨"snap", 5⟩] } (fun _ => ⟨1, []⟩) (some 5)).1.changedCount = some 0 ∧
    (build_backup_change_summary "snap" { code := 0, snapshots := [⟨"snap", 5⟩] } (fun _ => ⟨1, []⟩) (some 5)).1.deletedCount = some 0 ∧
    (build_backup_change_summary "snap" { code := 0, snapshots := [⟨"snap", 5⟩] } (fun _ => ⟨1, []⟩) (some 5)).1.samples = some ⟨[], [], []⟩ ∧
    (build_backup_change_summary "snap" { code := 0, snapshots := [⟨"snap", 5⟩] } (fun _ => ⟨1, []⟩) (some 5)).2 = [] :=
  unchanged_short_circuit "snap" { code := 0, snapshots := [⟨"snap", 5⟩] } (fun _ => ⟨1, []⟩) 5 rfl (by decide)

/-! ## Claim C6: diff correctness -/

theorem mem_sortedStr (l : List String) (p : String) : p ∈ sortedStr l ↔ p ∈ l :=
  (List.perm_insertionSort _ l).mem_iff

/-- C6.  The diff of two path→signature maps reports as new the latest
keys absent from previous, as deleted the previous keys absent from
latest, and as changed the keys in both whose signatures differ; each
result set is sorted and sampled to its first 12 entries; `unchanged`
holds exactly when all three counts are zero; and with an empty previous
map every latest path is new.  The concrete spec example behaves as
stated. -/
theorem diff_correctness :
    (∀ (latest prev : StrMap String) (p : String),
      (p ∈ diff_new_paths latest prev ↔ p ∈ latest.map (·.1) ∧ mget prev p = none) ∧
      (p ∈ diff_deleted_paths latest prev ↔ p ∈ prev.map (·.1) ∧ mget latest p = none) ∧
      (p ∈ diff_changed_paths latest prev ↔
        p ∈ latest.map (·.1) ∧ (mget prev p).isSome ∧ mget latest p ≠ mget prev p)) ∧
    (∀ (latest prev : StrMap String),
      (diff_new_paths latest prev).Sorted (· ≤ ·) ∧
      (diff_deleted_paths latest prev).Sorted (· ≤ ·) ∧
      (diff_changed_paths latest prev).Sorted (· ≤ ·)) ∧
    (∀ (rev : Int) (prevRev : Option Int) (latest prev : StrMap String),
      (diff_change_summary rev prevRev latest prev).samples =
        some ⟨(diff_new_paths latest prev).take 12, (diff_changed_paths latest prev).take 12,
              (diff_deleted_paths latest prev).take 12⟩ ∧
      ((diff_change_summary rev prevRev latest prev).unchanged = some true ↔
        (diff_change_summary rev prevRev latest prev).newCount = some 0 ∧
        (diff_change_summary rev prevRev latest prev).changedCount = some 0 ∧
        (diff_change_summary rev prevRev latest prev).deletedCount = some 0)) ∧
    (∀ latest : StrMap String,
      diff_new_paths latest [] = sortedStr (latest.map (·.1)) ∧
      diff_deleted_paths latest [] = [] ∧
      diff_changed_paths latest [] = []) ∧
    (diff_new_paths [("a", "h1"), ("b", "h2")] [("a", "h1"), ("c", "h3")] = ["b"] ∧
     diff_deleted_paths [("a", "h1"), ("b", "h2")] [("a", "h1"), ("c", "h3")] = ["c"] ∧
     diff_changed_paths [("a", "h1"), ("b", "h2")] [("a", "h1"), ("c", "h3")] = [] ∧
     (diff_change_summary 2 (some 1) [("a", "h1"), ("b", "h2")] [("a", "h1"), ("c", "h3")]).unchanged =
       some false) := by
  refine ⟨?_, ?_, ?_, ?_, by decide⟩
  · intro latest prev p
    refine ⟨?_, ?_, ?_⟩
    · rw [diff_new_paths, mem_sortedStr, List.mem_filter]
      simp [Option.isNone_iff_eq_none]
    · rw [diff_deleted_paths, mem_sortedStr, List.mem_filter]
      simp [Option.isNone_iff_eq_none]
    · rw [diff_changed_paths, mem_sortedStr, List.mem_filter]
      simp [and_assoc]
  · intro latest prev
    exact ⟨List.sorted_insertionSort _ _, List.sorted_insertionSort _ _,
      List.sorted_insertionSort _ _⟩
  · intro rev prevRev latest prev
    constructor
    · rfl
    · simp only [diff_change_summary]
      constructor
      · intro h
        have h0 : (diff_new_paths latest prev).length + (diff_changed_paths latest prev).length +
            (diff_deleted_paths latest prev).length = 0 := eq_of_beq (Option.some_inj.mp h)
        refine ⟨?_, ?_, ?_⟩ <;> · rw [Option.some_inj]; omega
      · rintro ⟨h1, h2, h3⟩
        rw [Option.some_inj] at h1 h2 h3
        rw [Option.some_inj]
        have hsum : (diff_new_paths latest prev).length + (diff_changed_paths latest prev).length +
            (diff_deleted_paths latest prev).length = 0 := by omega
        rw [hsum]
        rfl
  · intro latest
    refine ⟨?_, rfl, ?_⟩
    · rw [diff_new_paths]
      congr 1
      rw [List.filter_eq_self]
      intro a _
      rfl
    · rw [diff_changed_paths]
      rw [show (latest.map (·.1)).filter
          (fun p => (mget ([] : StrMap String) p).isSome && !(mget latest p == mget ([] : StrMap String) p)) =
          [] from List.filter_eq_nil_iff.mpr (fun a _ => by simp [mget])]
      rfl

/-! ## Claim C2: scheduler dispatch/write ordering -/

theorem normalize_schedule_config_spec (sched : Schedule) (now : Nat)
    (hen : sched.enabled = true) :
    (normalize_schedule_config sched now).lastRunAt = sched.lastRunAt ∧
    (normalize_schedule_config sched now).lastRunStatus = sched.lastRunStatus ∧
    ∃ t', (normalize_schedule_config sched now).nextRunAt = some t' ∧ now < t' := by
  refine ⟨rfl, rfl, ?_⟩
  exact compute_next_run_isSome (normalize_schedule_fields sched) now hen

/-- C2 counterexample.  A due, enabled daily 23:00 schedule (stored
`nextRunAt = 0`, `now` = one day later, no active job): the tick's
re-normalization rewrites `nextRunAt` to the freshly computed, future
instant before the due check, which therefore skips the repository — the
trace is empty, so no queued audit write precedes a `start_backup` call
because neither ever happens; the schedule is silently re-armed instead. -/
theorem scheduler_write_before_dispatch_counterexample :
    (scheduler_tick_repo "r1"
      { enabled := true, stype := "daily", hour := 23, minute := 0, days := [],
        nextRunAt := some 0 }
      usPerDay [] .ok).1 = [] ∧
    (scheduler_tick_repo "r1"
      { enabled := true, stype := "daily", hour := 23, minute := 0, days := [],
        nextRunAt := some 0 }
      usPerDay [] .ok).2.nextRunAt = some (usPerDay + 23 * usPerHour) ∧
    ¬ WritesQueuedThenStarts
      (scheduler_tick_repo "r1"
        { enabled := true, stype := "daily", hour := 23, minute := 0, days := [],
          nextRunAt := some 0 }
        usPerDay [] .ok).1 := by
  have htr : (scheduler_tick_repo "r1"
      { enabled := true, stype := "daily", hour := 23, minute := 0, days := [],
        nextRunAt := some 0 }
      usPerDay [] .ok).1 = [] := by decide
  refine ⟨htr, by decide, ?_⟩
  rintro ⟨j, hj, -, -⟩
  rw [htr] at hj
  simp at hj

/-- C2 amended.  On every tick, for each enabled resource whose stored
`nextRunAt` is due, the per-tick re-normalization (`helpers.py` lines
270-274) replaces `nextRunAt` with a freshly computed, strictly-future
instant before the due check, so the due check skips the resource: the
tick emits no `start_backup` call and no audit write, `lastRunAt` and
`lastRunStatus` are left unchanged, and the schedule is silently
re-armed.  The dispatch block — which invokes start first and writes the
audit fields only afterwards — is never reached for a due schedule; the
scheduler never dispatches a scheduled backup. -/
theorem scheduler_due_rearmed (repoId : String) (sched : Schedule) (now t : Nat)
    (activeKeys : List String) (outcome : StartOutcome)
    (hen : sched.enabled = true) (hnext : sched.nextRunAt = some t) (hdue : t ≤ now) :
    (scheduler_tick_repo repoId sched now activeKeys outcome).1 = [] ∧
    (scheduler_tick_repo repoId sched now activeKeys outcome).2.lastRunAt = sched.lastRunAt ∧
    (scheduler_tick_repo repoId sched now activeKeys outcome).2.lastRunStatus = sched.lastRunStatus ∧
    ∃ t', (scheduler_tick_repo repoId sched now activeKeys outcome).2.nextRunAt = some t' ∧
      now < t' := by
  obtain ⟨hLA, hLS, t', hnx, hlt⟩ := normalize_schedule_config_spec sched now hen
  have hsched1 : (if normalize_schedule_config sched now ≠ sched
      then normalize_schedule_config sched now else sched) =
      normalize_schedule_config sched now := by
    by_cases h : normalize_schedule_config sched now = sched
    · rw [if_neg (not_not_intro h)]
      exact h.symm
    · rw [if_pos h]
  have hres : scheduler_tick_repo repoId sched now activeKeys outcome =
      ([], normalize_schedule_config sched now) := by
    by_cases hmem : repoId ∈ activeKeys
    · simp [scheduler_tick_repo, hen, hsched1, hnx, hmem]
    · simp [scheduler_tick_repo, hen, hsched1, hnx, hmem, hlt]
  rw [hres]
  exact ⟨rfl, hLA, hLS, t', hnx, hlt⟩

/-- Closed instance of `scheduler_due_rearmed` on the counterexample's due
schedule: empty trace, untouched audit fields, re-armed future
`nextRunAt`. -/
theorem scheduler_due_rearmed_witness :
    (scheduler_tick_repo "r1"
      { enabled := true, stype := "daily", hour := 23, minute := 0, days := [],
        nextRunAt := some 0 }
      usPerDay [] .ok).1 = [] ∧
    (scheduler_tick_repo "r1"
      { enabled := true, stype := "daily", hour := 23, minute := 0, days := [],
        nextRunAt := some 0 }
      usPerDay [] .ok).2.lastRunAt = none ∧
    (scheduler_tick_repo "r1"
      { enabled := true, stype := "daily", hour := 23, minute := 0, days := [],
        nextRunAt := some 0 }
      usPerDay [] .ok).2.lastRunStatus = none ∧
    ∃ t', (scheduler_tick_repo "r1"
      { enabled := true, stype := "daily", hour := 23, minute := 0, days := [],
        nextRunAt := some 0 }
      usPerDay [] .ok).2.nextRunAt = some t' ∧ usPerDay < t' :=
  scheduler_due_rearmed "r1"
    { enabled := true, stype := "daily", hour := 23, minute := 0, days := [],
      nextRunAt := some 0 }
    usPerDay 0 [] .ok rfl rfl (Nat.zero_le _)

/-! ## Claim C10: secret scrubbing of repository responses -/

/-- C10.  Sanitized repository records contain none of the internal secret
keys, every other key keeps its value unchanged, and the repository read
endpoint returns exactly the sanitized records. -/
theorem sanitize_repo_scrubs {α : Type} (repo : StrMap α) :
    (∀ s ∈ INTERNAL_SECRET_KEYS, mget (sanitize_repo repo) s = none) ∧
    (∀ k, k ∉ INTERNAL_SECRET_KEYS → mget (sanitize_repo repo) k = mget repo k) ∧
    (∀ repos : List (StrMap α), get_repos repos = repos.map sanitize_repo) := by
  have hs : sanitize_repo repo =
      mpop (mpop (mpop repo "_secrets") "wasabiAccessKey") "wasabiAccessId" := rfl
  refine ⟨?_, ?_, fun _ => rfl⟩
  · intro s hsk
    rw [hs]
    simp only [INTERNAL_SECRET_KEYS, List.mem_cons, List.not_mem_nil, or_false] at hsk
    rcases hsk with rfl | rfl | rfl
    · rw [mget_mpop_ne _ _ _ (by decide), mget_mpop_ne _ _ _ (by decide)]
      exact mget_mpop_self repo "_secrets"
    · rw [mget_mpop_ne _ _ _ (by decide)]
      exact mget_mpop_self _ "wasabiAccessKey"
    · exact mget_mpop_self _ "wasabiAccessId"
  · intro k hk
    have h1 : k ≠ "_secrets" := fun hc => hk (by rw [hc]; exact List.mem_cons_self _ _)
    have h2 : k ≠ "wasabiAccessKey" := fun hc => hk (by
      rw [hc]; exact List.mem_cons_of_mem _ (List.mem_cons_self _ _))
    have h3 : k ≠ "wasabiAccessId" := fun hc => hk (by
      rw [hc]; exact List.mem_cons_of_mem _ (List.mem_cons_of_mem _ (List.mem_cons_self _ _)))
    rw [hs, mget_mpop_ne _ _ _ h3, mget_mpop_ne _ _ _ h2, mget_mpop_ne _ _ _ h1]

/-- Closed instance of `sanitize_repo_scrubs`: the secret keys disappear
and an ordinary key survives untouched. -/
theorem sanitize_repo_scrubs_witness :
    mget (sanitize_repo [("name", "repo1"), ("_secrets", "S"), ("wasabiAccessId", "ID"),
      ("wasabiAccessKey", "KEY")]) "_secrets" = none ∧
    mget (sanitize_repo [("name", "repo1"), ("_secrets", "S"), ("wasabiAccessId", "ID"),
      ("wasabiAccessKey", "KEY")]) "name" =
      mget [("name", "repo1"), ("_secrets", "S"), ("wasabiAccessId", "ID"),
        ("wasabiAccessKey", "KEY")] "name" :=
  ⟨(sanitize_repo_scrubs [("name", "repo1"), ("_secrets", "S"), ("wasabiAccessId", "ID"),
      ("wasabiAccessKey", "KEY")]).1 "_secrets" (List.mem_cons_self _ _),
   (sanitize_repo_scrubs [("name", "repo1"), ("_secrets", "S"), ("wasabiAccessId", "ID"),
      ("wasabiAccessKey", "KEY")]).2.1 "name" (by decide)⟩

end DupliManager
